import Mathlib

/-!
# Verification of the Orchid ETL pipeline

A shallow embedding of `src/etl_pipeline.py` and `src/query_output.py`.

* Pandas `DataFrame`s are modelled as a list of column names together with a
  list of rows; a row is an association list from column name to a JSON-like
  cell value (`JValue`).  A pandas `NaN`/`None` cell is modelled by
  `JValue.null`.
* `df[c] = series` is modelled by `DataFrame.setCol`, which overwrites the
  column when the name already exists and appends it otherwise — exactly the
  pandas assignment semantics.
* Python's `json.dumps` (default options: separators `", "`/`": "`,
  `ensure_ascii=True`) is modelled by `jsonDumps`.
* Python's `sorted` on strings (lexicographic by code point) is modelled by
  `List.insertionSort` over `strLeR`.
* Python's `str.strip` / `str.strip('"')` / `str.replace` are modelled by
  `pyStrip`, `pyStripQuotes` and `pyReplace`.
* In-place mutation of the caller's frame (`df[...] = ...` inside
  `extract_details_fields` and `generate_event_id`) is modelled separately by
  the `*_obj` functions, which act on an explicit heap of frame objects.
-/

namespace Orchid

mutual
/-- JSON values, the cell values of our data frames.  Mutual with `JObj`,
the entry list of a JSON object (a Python `dict`).  `null` also stands for
Python `None` / pandas missing values.  (JSON arrays are not needed by any
claim and are omitted from the cell-value universe.) -/
inductive JValue where
  | null : JValue
  | bool (b : Bool) : JValue
  | num (n : Int) : JValue
  | str (s : String) : JValue
  | obj (entries : JObj) : JValue
inductive JObj where
  | nil : JObj
  | cons (key : String) (value : JValue) (tail : JObj) : JObj
end

deriving instance DecidableEq for JValue

deriving instance DecidableEq for JObj

/-- `dict` key lookup (`x.get(field)` returns the value when present). -/
def jobjLookup : JObj → String → Option JValue
  | JObj.nil, _ => none
  | JObj.cons k v t, field => if k = field then some v else jobjLookup t field

/-- Lexicographic comparison of character lists by code point, the order
Python's `sorted` uses on `str`. -/
def lexLe : List Char → List Char → Bool
  | [], _ => true
  | _ :: _, [] => false
  | a :: as, b :: bs => if a = b then lexLe as bs else decide (a.toNat < b.toNat)

/-- Python's `<=` on strings, as a relation. -/
def strLeR (a b : String) : Prop := lexLe a.data b.data = true

instance : DecidableRel strLeR := fun _ _ => inferInstanceAs (Decidable (_ = true))

/-- Python's `sorted` on a list of strings. -/
def pySorted (l : List String) : List String := l.insertionSort strLeR

/-- One hexadecimal digit, lower case (as `json.dumps` emits in `\uXXXX`). -/
def hexDigit (n : Nat) : Char :=
  if n < 10 then Char.ofNat (48 + n) else Char.ofNat (87 + n)

/-- Four hexadecimal digits. -/
def hex4 (n : Nat) : String :=
  String.mk [hexDigit (n / 4096 % 16), hexDigit (n / 256 % 16),
    hexDigit (n / 16 % 16), hexDigit (n % 16)]

/-- How `json.dumps` (default `ensure_ascii=True`) renders one character of a
string: the two-character escapes, `\uXXXX` for other control or non-ASCII
characters (with surrogate pairs beyond the BMP), the character itself
otherwise. -/
def jsonEscapeChar (c : Char) : String :=
  if c = '"' then "\\\""
  else if c = '\\' then "\\\\"
  else if c = '\n' then "\\n"
  else if c = '\t' then "\\t"
  else if c = '\r' then "\\r"
  else if c = '\x08' then "\\b"
  else if c = '\x0c' then "\\f"
  else if c.toNat < 32 then "\\u" ++ hex4 c.toNat
  else if c.toNat < 128 then String.mk [c]
  else if c.toNat < 65536 then "\\u" ++ hex4 c.toNat
  else
    "\\u" ++ hex4 (55296 + (c.toNat - 65536) / 1024) ++
    "\\u" ++ hex4 (56320 + (c.toNat - 65536) % 1024)

/-- A JSON string literal as `json.dumps` renders it. -/
def jsonQuote (s : String) : String :=
  "\"" ++ String.join (s.data.map jsonEscapeChar) ++ "\""

mutual
/-- Python's `json.dumps` with its default options (`", "` and `": "`
separators). `null`/`None` serializes to the literal `"null"`. -/
def jsonDumps : JValue → String
  | JValue.null => "null"
  | JValue.bool true => "true"
  | JValue.bool false => "false"
  | JValue.num n => toString n
  | JValue.str s => jsonQuote s
  | JValue.obj entries =>
    "\x7b" ++ String.intercalate ", " (jsonDumpsEntries entries) ++ "\x7d"
def jsonDumpsEntries : JObj → List String
  | JObj.nil => []
  | JObj.cons k v t => (jsonQuote k ++ ": " ++ jsonDumps v) :: jsonDumpsEntries t
end

/-- A data-frame row: an association list from column name to cell value.
In a well-formed frame every row has exactly the frame's columns as keys. -/
abbrev Row := List (String × JValue)

/-- Reading a cell (`row[c]`); `null` models a missing/NaN cell. -/
def rowGet (r : Row) (c : String) : JValue := (List.lookup c r).getD JValue.null

/-- Writing a cell: overwrite in place when the key exists, append otherwise
(the row-level picture of pandas column assignment). -/
def rowSet (r : Row) (c : String) (v : JValue) : Row :=
  if (List.lookup c r).isSome then
    r.map (fun p => if p.1 = c then (c, v) else p)
  else r ++ [(c, v)]

/-- A pandas `DataFrame`: ordered column names plus rows. -/
structure DataFrame where
  cols : List String
  rows : List Row
deriving DecidableEq

/-- The empty frame (heap default). -/
def emptyFrame : DataFrame := { cols := [], rows := [] }

/-- `df[c] = vals`: the column is overwritten when present and appended at
the end of the column list otherwise; each row receives its value. -/
def DataFrame.setCol (df : DataFrame) (c : String) (vals : List JValue) : DataFrame :=
  { cols := if c ∈ df.cols then df.cols else df.cols ++ [c]
    rows := List.zipWith (fun r v => rowSet r c v) df.rows vals }

/-- The values of one column, top to bottom. -/
def DataFrame.colVals (df : DataFrame) (c : String) : List JValue :=
  df.rows.map (fun r => rowGet r c)

/-! ## `etl_pipeline.py` -/

/-- Whether `str.strip()` removes this character (ASCII whitespace). -/
def pyIsSpace (c : Char) : Bool :=
  decide (c = ' ' ∨ c = '\t' ∨ c = '\n' ∨ c = '\x0d' ∨ c = '\x0b' ∨ c = '\x0c')

/-- Python `strip` on a character list: drop the maximal run of characters
satisfying `p` from both ends. -/
def pyStripList (p : Char → Bool) (l : List Char) : List Char :=
  ((l.dropWhile p).reverse.dropWhile p).reverse

/-- `line.strip()`. -/
def pyStrip (s : String) : String := String.mk (pyStripList pyIsSpace s.data)

/-- `line.strip('"')`: removes ALL leading and trailing quote characters. -/
def pyStripQuotes (s : String) : String :=
  String.mk (pyStripList (fun c => decide (c = '"')) s.data)

/-- `etl_pipeline.py:28` — the per-line repair `line.strip().strip('"')`
applied by `load_user_profiles` to every line of a profile file. -/
def repair_line (line : String) : String := pyStripQuotes (pyStrip line)

/-- Decoding with `encoding="utf-8-sig"`: a byte-order mark at the start of
the file content is dropped; nothing else changes. -/
def stripBOM (s : String) : String :=
  match s.data with
  | c :: rest => if c = '﻿' then String.mk rest else s
  | [] => s

/-- Split a character list at newline characters (Python line iteration, with
each line's trailing newline subsequently removed by `strip()`). -/
def splitLines (l : List Char) : List (List Char) :=
  l.foldr
    (fun c acc =>
      match acc with
      | [] => [[c]]
      | cur :: rest => if c = '\n' then [] :: cur :: rest else (c :: cur) :: rest)
    [[]]

/-- `etl_pipeline.py:27-29` — the repaired CSV text `fixed_csv` built by
`load_user_profiles` from one file's content: decode dropping the BOM, repair
every line, rejoin with newlines.  (The subsequent `pd.read_csv` parse with
`parse_dates=['registration_date']` is the pandas library, not repository
code, and is not modelled.) -/
def fixed_csv (content : String) : String :=
  String.intercalate "\n"
    ((splitLines (stripBOM content).data).map (fun l => repair_line (String.mk l)))

/-- `etl_pipeline.py:61` — the fixed default detail fields. -/
def default_fields : List String := ["page_url", "button_id", "item_id"]

/-- `etl_pipeline.py:62` — `sorted(set(default_fields + (fields if fields
else [])))` as computed by `extract_details_fields`.  `none` models the
`None` default; the empty list is falsy in Python, so both give `[]`. -/
def all_fields_of (fields : Option (List String)) : List String :=
  pySorted (default_fields ++ fields.getD []).dedup

/-- `etl_pipeline.py:65` — `x.get(field) if isinstance(x, dict) else None`. -/
def detailsGet (x : JValue) (field : String) : JValue :=
  match x with
  | JValue.obj entries => (jobjLookup entries field).getD JValue.null
  | _ => JValue.null

/-- One iteration of the loop at `etl_pipeline.py:64-65`:
`df[field] = df['details'].apply(lambda x: x.get(field) if isinstance(x, dict) else None)`.
The projection reads the frame's CURRENT `details` column. -/
def projStep (d : DataFrame) (field : String) : DataFrame :=
  d.setCol field (d.rows.map (fun r => detailsGet (rowGet r "details") field))

/-- `etl_pipeline.py:57-68` — `extract_details_fields`: first
`df['details_raw'] = df['details'].apply(json.dumps)`, then the loop over the
sorted effective field set. -/
def extract_details_fields (df : DataFrame) (fields : Option (List String)) : DataFrame :=
  let df1 := df.setCol "details_raw"
    (df.rows.map (fun r => JValue.str (jsonDumps (rowGet r "details"))))
  (all_fields_of fields).foldl projStep df1

/-- The number of profile rows whose `user_id` equals the event row's
`user_id` (pandas `merge` matches missing keys with missing keys). -/
def matchCount (profiles_df : DataFrame) (er : Row) : Nat :=
  profiles_df.rows.countP (fun pr => decide (rowGet pr "user_id" = rowGet er "user_id"))

/-- `etl_pipeline.py:74-78` — `join_data`:
`events_df.merge(profiles_df, on='user_id', how='left')`.  Every event row
produces one output row per matching profile row, or a single row with the
profile-side columns null when nothing matches.  Output columns are the event
columns followed by the non-key profile columns. -/
def join_data (profiles_df events_df : DataFrame) : DataFrame :=
  { cols := events_df.cols ++ profiles_df.cols.filter (fun c => decide (c ≠ "user_id"))
    rows := events_df.rows.flatMap (fun er =>
      let ms := profiles_df.rows.filter
        (fun pr => decide (rowGet pr "user_id" = rowGet er "user_id"))
      if ms.isEmpty then
        [er ++ (profiles_df.cols.filter (fun c => decide (c ≠ "user_id"))).map
          (fun c => (c, JValue.null))]
      else ms.map (fun pr => er ++ pr.filter (fun p => decide (p.1 ≠ "user_id")))) }

/-- `etl_pipeline.py:83-86` — `generate_event_id`:
`df['event_id'] = [str(uuid.uuid4()) for _ in range(len(df))]`.  The stream of
strings produced by the successive `uuid.uuid4()` calls is passed in as
`gen`; the list comprehension draws one per row. -/
def generate_event_id (gen : Nat → String) (df : DataFrame) : DataFrame :=
  df.setCol "event_id" ((List.range df.rows.length).map (fun i => JValue.str (gen i)))

/-- `etl_pipeline.py:94-97` — the fixed 9-name base schema. -/
def base_columns : List String :=
  ["event_id", "user_id", "name", "location", "registration_date",
   "event_type", "timestamp", "event_date", "details_raw"]

/-- `etl_pipeline.py:98-99` — the dynamic field list re-derived inside
`select_final_columns`, transcribed separately from `all_fields_of` because
the source duplicates the computation. -/
def select_all_fields (extra_fields : Option (List String)) : List String :=
  pySorted (default_fields ++ extra_fields.getD []).dedup

/-- `etl_pipeline.py:92-102` — `select_final_columns`: concatenate the base
schema and the dynamic fields, keep only the names present in `df.columns`
(in that order), and take that column subset. -/
def select_final_columns (df : DataFrame) (extra_fields : Option (List String)) : DataFrame :=
  let final_columns := base_columns ++ select_all_fields extra_fields
  let available_columns := final_columns.filter (fun c => decide (c ∈ df.cols))
  { cols := available_columns
    rows := df.rows.map (fun r => available_columns.map (fun c => (c, rowGet r c))) }

/-! ## The in-place mutation picture

`df[col] = series` in Python mutates the frame object the caller passed in,
so `extract_details_fields` and `generate_event_id` return the very object
they received, now modified; `join_data` (`DataFrame.merge`) and
`select_final_columns` (`df[columns]`) allocate fresh frames.  We make object
identity explicit with a heap of frame objects addressed by `Nat`
references. -/

/-- Dereference a frame object. -/
def heapGet (h : List DataFrame) (r : Nat) : DataFrame := h.getD r emptyFrame

/-- `extract_details_fields` on the heap: the column assignments at
`etl_pipeline.py:59` and `:65` update the argument object in place and the
function returns its argument (`return df`). -/
def extract_details_fields_obj (fields : Option (List String)) (r : Nat)
    (h : List DataFrame) : Nat × List DataFrame :=
  (r, h.set r (extract_details_fields (heapGet h r) fields))

/-- `generate_event_id` on the heap: `df['event_id'] = ...; return df`
updates the argument object in place and returns it. -/
def generate_event_id_obj (gen : Nat → String) (r : Nat)
    (h : List DataFrame) : Nat × List DataFrame :=
  (r, h.set r (generate_event_id gen (heapGet h r)))

/-- `join_data` on the heap: `events_df.merge(...)` allocates a fresh frame
and leaves both arguments untouched. -/
def join_data_obj (rp re : Nat) (h : List DataFrame) : Nat × List DataFrame :=
  (h.length, h ++ [join_data (heapGet h rp) (heapGet h re)])

/-- `select_final_columns` on the heap: `df[available_columns]` produces a
new frame and leaves the argument untouched. -/
def select_final_columns_obj (extra_fields : Option (List String)) (r : Nat)
    (h : List DataFrame) : Nat × List DataFrame :=
  (h.length, h ++ [select_final_columns (heapGet h r) extra_fields])

/-! ## `query_output_parquet` (`query_output.py`) -/

/-- Is `pat` an initial segment of `l`? -/
def startsWithL : List Char → List Char → Bool
  | [], _ => true
  | _ :: _, [] => false
  | p :: ps, c :: cs => p = c && startsWithL ps cs

/-- Replace every occurrence of `pat` (non-overlapping, left to right) by
`rep`; `fuel` bounds the recursion and is instantiated with the input
length, which suffices for a non-empty pattern. -/
def replaceAux (pat rep : List Char) : Nat → List Char → List Char
  | _, [] => []
  | 0, l => l
  | Nat.succ fuel, c :: cs =>
    if startsWithL pat (c :: cs) then rep ++ replaceAux pat rep fuel ((c :: cs).drop pat.length)
    else c :: replaceAux pat rep fuel cs

/-- Python's `str.replace` (replace all occurrences). -/
def pyReplace (s pat rep : String) : String :=
  String.mk (replaceAux pat.data rep.data s.data.length s.data)

/-- The two failures of the query collaborator: `FileNotFoundError` when the
path does not exist and `RuntimeError` wrapping a failed execution. -/
inductive QueryError where
  | pathNotFound (msg : String)
  | queryFailure (msg : String)
deriving DecidableEq

/-- `query_output.py:22` — the query actually executed: the placeholder
replaced by a recursive glob over all parquet files beneath the directory. -/
def formatted_query (query parquet_path : String) : String :=
  pyReplace query "\x7bparquet_path\x7d" (parquet_path ++ "/**/*.parquet")

/-- `query_output.py:7-31` — `query_output_parquet`.  The filesystem and the
DuckDB engine are the environment: `fsExists` says whether a (resolved) path
exists, `exec` runs a SQL string and either returns a tabular result or
fails with an error message `e` (a raised exception rendered as text). -/
def query_output_parquet (fsExists : String → Bool)
    (exec : String → Except String DataFrame)
    (query : String) (parquet_path : String) : Except QueryError DataFrame :=
  if fsExists parquet_path then
    match exec (formatted_query query parquet_path) with
    | Except.ok result_df => Except.ok result_df
    | Except.error e => Except.error (QueryError.queryFailure ("Query failed: " ++ e))
  else
    Except.error (QueryError.pathNotFound
      ("Provided path does not exist: " ++ parquet_path))

/-! ## Concrete frames used by witnesses and counterexamples

`evFrame`/`prFrame` transcribe the worked scenario of the specification:
two profile rows (user 1 "A", user 2 "B") and two events (a click by user 1
with `details = {page_url: "/x"}`, a view by user 3 with null details). -/

/-- The example event frame of the spec's scenario (§8). -/
def evFrame : DataFrame :=
  { cols := ["user_id", "event_type", "timestamp", "details", "event_date"]
    rows := [
      [("user_id", JValue.num 1), ("event_type", JValue.str "click"),
       ("timestamp", JValue.str "2024-02-01T10:00:00"),
       ("details", JValue.obj (JObj.cons "page_url" (JValue.str "/x") JObj.nil)),
       ("event_date", JValue.str "2024-02-01")],
      [("user_id", JValue.num 3), ("event_type", JValue.str "view"),
       ("timestamp", JValue.str "2024-02-02T11:00:00"), ("details", JValue.null),
       ("event_date", JValue.str "2024-02-02")]] }

/-- The example profile frame of the spec's scenario (§8). -/
def prFrame : DataFrame :=
  { cols := ["user_id", "name", "location", "registration_date"]
    rows := [
      [("user_id", JValue.num 1), ("name", JValue.str "A"),
       ("location", JValue.null), ("registration_date", JValue.str "2024-01-01")],
      [("user_id", JValue.num 2), ("name", JValue.str "B"),
       ("location", JValue.null), ("registration_date", JValue.str "2024-01-05")]] }

/-- A one-row event frame used to exhibit the column-overwrite behaviour:
the caller-requested field `user_id` is already a column. -/
def dfClash : DataFrame :=
  { cols := ["user_id", "details"]
    rows := [[("user_id", JValue.num 1), ("details", JValue.null)]] }

/-- A one-row event frame whose `details` map contains the keys `details`
and `user_id`; requesting the field list `["details", "user_id"]` makes the
loop overwrite the `details` column before projecting `user_id`. -/
def dfShadow : DataFrame :=
  { cols := ["user_id", "details"]
    rows := [[("user_id", JValue.num 5),
      ("details", JValue.obj
        (JObj.cons "details" (JValue.obj (JObj.cons "user_id" (JValue.num 7) JObj.nil))
          (JObj.cons "user_id" (JValue.num 5) JObj.nil)))]] }

/-- A kernel-computable stand-in for the `uuid.uuid4()` stream (injective on
any finite range, so its draws are pairwise distinct). -/
def genDistinct : Nat → String := fun i => String.mk (List.replicate i 'x')

/-- A doubly-quoted profile line as produced by the malformed source tool,
with surrounding whitespace. -/
def lineEx : String := " \"\"1,A\"\" "

/-- A one-object heap holding the scenario event frame. -/
def heapEx : List DataFrame := [evFrame]

/-- Modelled from the spec's words, for comparison with the source's
`line.strip('"')`: strip AT MOST ONE quote character from each end (\"a
single layer of surrounding quote characters\"). -/
def strip_one_quote_layer (s : String) : String :=
  let l1 : List Char :=
    match s.data with
    | c :: rest => if c = '"' then rest else s.data
    | [] => []
  let l2 : List Char :=
    match l1.reverse with
    | c :: rest => if c = '"' then rest.reverse else l1
    | [] => l1
  String.mk l2

/-! ## Row and column-assignment lemmas -/

theorem str_beq_true {a b : String} (h : a = b) : (a == b) = true :=
  beq_iff_eq.mpr h

theorem str_beq_false {a b : String} (h : a ≠ b) : (a == b) = false :=
  beq_eq_false_iff_ne.mpr h

theorem lookup_map_overwrite (r : Row) (c : String) (v : JValue) :
    List.lookup c (r.map (fun p => if p.1 = c then (c, v) else p)) =
      (List.lookup c r).map (fun _ => v) := by
  induction r with
  | nil => simp
  | cons p t ih =>
    obtain ⟨k, w⟩ := p
    by_cases h : k = c
    · subst h
      simp [List.lookup_cons, str_beq_true rfl]
    · simp [List.lookup_cons, h, str_beq_false (Ne.symm h), ih]

theorem lookup_map_overwrite_ne (r : Row) (c c' : String) (v : JValue) (h : c' ≠ c) :
    List.lookup c' (r.map (fun p => if p.1 = c then (c, v) else p)) =
      List.lookup c' r := by
  induction r with
  | nil => simp
  | cons p t ih =>
    obtain ⟨k, w⟩ := p
    by_cases hk : k = c
    · subst hk
      simp [List.lookup_cons, str_beq_false h, ih]
    · by_cases hk' : c' = k
      · subst hk'
        simp [List.lookup_cons, hk, str_beq_true rfl]
      · simp [List.lookup_cons, hk, str_beq_false hk', ih]

theorem lookup_append_some (r s : Row) (c : String) (w : JValue)
    (h : List.lookup c r = some w) : List.lookup c (r ++ s) = some w := by
  induction r with
  | nil => simp at h
  | cons p t ih =>
    obtain ⟨k, u⟩ := p
    by_cases hk : c = k
    · subst hk
      simp [List.cons_append, List.lookup_cons, str_beq_true rfl] at h ⊢
      exact h
    · simp only [List.cons_append, List.lookup_cons, str_beq_false hk] at h ⊢
      exact ih h

theorem lookup_append_none (r s : Row) (c : String)
    (h : List.lookup c r = none) : List.lookup c (r ++ s) = List.lookup c s := by
  induction r with
  | nil => simp
  | cons p t ih =>
    obtain ⟨k, u⟩ := p
    by_cases hk : c = k
    · subst hk
      simp only [List.lookup_cons, str_beq_true rfl] at h
      exact Option.noConfusion h
    · simp only [List.cons_append, List.lookup_cons, str_beq_false hk] at h ⊢
      exact ih h

theorem rowSet_of_none {r : Row} {c : String} (v : JValue)
    (hl : List.lookup c r = none) : rowSet r c v = r ++ [(c, v)] := by
  unfold rowSet
  simp [hl]

theorem rowSet_of_some {r : Row} {c : String} {w : JValue} (v : JValue)
    (hl : List.lookup c r = some w) :
    rowSet r c v = r.map (fun p => if p.1 = c then (c, v) else p) := by
  unfold rowSet
  simp [hl]

theorem lookup_rowSet_self (r : Row) (c : String) (v : JValue) :
    List.lookup c (rowSet r c v) = some v := by
  cases hl : List.lookup c r with
  | some w =>
    rw [rowSet_of_some v hl, lookup_map_overwrite, hl]
    rfl
  | none =>
    rw [rowSet_of_none v hl, lookup_append_none _ _ _ hl]
    simp [List.lookup_cons, str_beq_true rfl]

theorem lookup_rowSet_ne (r : Row) (c c' : String) (v : JValue) (h : c' ≠ c) :
    List.lookup c' (rowSet r c v) = List.lookup c' r := by
  cases hl : List.lookup c r with
  | some w =>
    rw [rowSet_of_some v hl]
    exact lookup_map_overwrite_ne r c c' v h
  | none =>
    rw [rowSet_of_none v hl]
    cases hl' : List.lookup c' r with
    | some w' => exact lookup_append_some _ _ _ _ hl'
    | none =>
      rw [lookup_append_none _ _ _ hl']
      simp [List.lookup_cons, str_beq_false h]

theorem rowGet_rowSet_self (r : Row) (c : String) (v : JValue) :
    rowGet (rowSet r c v) c = v := by
  simp [rowGet, lookup_rowSet_self]

theorem rowGet_rowSet_ne (r : Row) (c c' : String) (v : JValue) (h : c' ≠ c) :
    rowGet (rowSet r c v) c' = rowGet r c' := by
  simp [rowGet, lookup_rowSet_ne r c c' v h]

/-! ## Column-assignment lemmas at the frame level -/

theorem setCol_cols (df : DataFrame) (c : String) (vals : List JValue) :
    (df.setCol c vals).cols = if c ∈ df.cols then df.cols else df.cols ++ [c] := rfl

theorem rows_setCol_map (df : DataFrame) (c : String) (f : Row → JValue) :
    (df.setCol c (df.rows.map f)).rows = df.rows.map (fun r => rowSet r c (f r)) := by
  simp [DataFrame.setCol, List.zipWith_map_right, List.zipWith_same]

theorem map_rowGet_zipWith_self (c : String) :
    ∀ (rs : List Row) (vs : List JValue), vs.length = rs.length →
      (List.zipWith (fun r v => rowSet r c v) rs vs).map (fun r => rowGet r c) = vs
  | [], [], _ => rfl
  | [], _ :: _, h => by simp at h
  | _ :: _, [], h => by simp at h
  | r :: rs, v :: vs, h => by
    simp only [List.zipWith_cons_cons, List.map_cons, rowGet_rowSet_self]
    rw [map_rowGet_zipWith_self c rs vs (by simpa using h)]

theorem map_rowGet_zipWith_ne (c c' : String) (h : c' ≠ c) :
    ∀ (rs : List Row) (vs : List JValue), vs.length = rs.length →
      (List.zipWith (fun r v => rowSet r c v) rs vs).map (fun r => rowGet r c') =
        rs.map (fun r => rowGet r c')
  | [], [], _ => rfl
  | [], _ :: _, hl => by simp at hl
  | _ :: _, [], hl => by simp at hl
  | r :: rs, v :: vs, hl => by
    simp only [List.zipWith_cons_cons, List.map_cons, rowGet_rowSet_ne r c c' v h]
    rw [map_rowGet_zipWith_ne c c' h rs vs (by simpa using hl)]

theorem colVals_setCol_self (df : DataFrame) (c : String) (vals : List JValue)
    (h : vals.length = df.rows.length) : (df.setCol c vals).colVals c = vals :=
  map_rowGet_zipWith_self c df.rows vals h

theorem colVals_setCol_ne (df : DataFrame) (c c' : String) (vals : List JValue)
    (h : vals.length = df.rows.length) (hne : c' ≠ c) :
    (df.setCol c vals).colVals c' = df.colVals c' :=
  map_rowGet_zipWith_ne c c' hne df.rows vals h

theorem length_rows_setCol (df : DataFrame) (c : String) (vals : List JValue)
    (h : vals.length = df.rows.length) :
    (df.setCol c vals).rows.length = df.rows.length := by
  simp [DataFrame.setCol, h]

theorem mem_zipWith_rowSet (c : String) :
    ∀ (rs : List Row) (vs : List JValue) (x : Row),
      x ∈ List.zipWith (fun r v => rowSet r c v) rs vs → ∃ r v, x = rowSet r c v
  | [], _, x, hx => by simp at hx
  | _ :: _, [], x, hx => by simp at hx
  | r :: rs, v :: vs, x, hx => by
    rcases List.mem_cons.mp hx with he | hm
    · exact ⟨r, v, he⟩
    · exact mem_zipWith_rowSet c rs vs x hm

theorem lookup_isSome_of_mem_setCol (df : DataFrame) (c : String) (vals : List JValue)
    (x : Row) (hx : x ∈ (df.setCol c vals).rows) : (List.lookup c x).isSome := by
  obtain ⟨r, v, he⟩ := mem_zipWith_rowSet c df.rows vals x hx
  rw [he, lookup_rowSet_self]
  rfl

/-! ## The effective field set -/

theorem lexLe_total : ∀ a b : List Char, lexLe a b = true ∨ lexLe b a = true
  | [], _ => Or.inl rfl
  | _ :: _, [] => Or.inr rfl
  | a :: as, b :: bs => by
    by_cases h : a = b
    · subst h
      simpa [lexLe] using lexLe_total as bs
    · have hne : a.toNat ≠ b.toNat := fun he => h (Char.ext (UInt32.ext he))
      rcases Nat.lt_or_ge a.toNat b.toNat with hlt | hge
      · left
        simp [lexLe, h, hlt]
      · right
        have hba : b.toNat < a.toNat := lt_of_le_of_ne hge (Ne.symm hne)
        simp [lexLe, Ne.symm h, hba]

theorem lexLe_trans : ∀ a b c : List Char,
    lexLe a b = true → lexLe b c = true → lexLe a c = true
  | [], _, _, _, _ => rfl
  | _ :: _, [], _, h1, _ => by simp [lexLe] at h1
  | _ :: _, _ :: _, [], _, h2 => by simp [lexLe] at h2
  | a :: as, b :: bs, c :: cs, h1, h2 => by
    by_cases hab : a = b <;> by_cases hbc : b = c
    · subst hab
      subst hbc
      simp only [lexLe, if_pos rfl] at h1 h2 ⊢
      exact lexLe_trans as bs cs h1 h2
    · subst hab
      simp only [lexLe, if_neg hbc] at h2
      simp [lexLe, hbc, h2]
    · subst hbc
      simp only [lexLe, if_neg hab] at h1
      simp [lexLe, hab, h1]
    · simp only [lexLe, if_neg hab] at h1
      simp only [lexLe, if_neg hbc] at h2
      have h1' : a.toNat < b.toNat := of_decide_eq_true h1
      have h2' : b.toNat < c.toNat := of_decide_eq_true h2
      have hac : a.toNat < c.toNat := h1'.trans h2'
      have hne : a ≠ c := fun he => absurd (he ▸ hac) (lt_irrefl _)
      simp [lexLe, hne, hac]

instance : IsTotal String strLeR := ⟨fun a b => lexLe_total a.data b.data⟩

instance : IsTrans String strLeR :=
  ⟨fun a b c h1 h2 => lexLe_trans a.data b.data c.data h1 h2⟩

theorem all_fields_nodup (fields : Option (List String)) :
    (all_fields_of fields).Nodup := by
  unfold all_fields_of pySorted
  exact (List.perm_insertionSort strLeR _).symm.nodup (List.nodup_dedup _)

theorem mem_all_fields (fields : Option (List String)) (s : String) :
    s ∈ all_fields_of fields ↔ s ∈ default_fields ∨ s ∈ fields.getD [] := by
  unfold all_fields_of pySorted
  simp [List.mem_insertionSort, List.mem_dedup]

theorem all_fields_sorted (fields : Option (List String)) :
    List.Sorted strLeR (all_fields_of fields) :=
  List.sorted_insertionSort strLeR _

/-! ## The projection loop of `extract_details_fields` -/

theorem projStep_rows (d : DataFrame) (f : String) :
    (projStep d f).rows =
      d.rows.map (fun r => rowSet r f (detailsGet (rowGet r "details") f)) :=
  rows_setCol_map d f _

theorem projStep_cols (d : DataFrame) (f : String) :
    (projStep d f).cols = if f ∈ d.cols then d.cols else d.cols ++ [f] := rfl

theorem foldl_projStep_length : ∀ (fs : List String) (d : DataFrame),
    (fs.foldl projStep d).rows.length = d.rows.length
  | [], _ => rfl
  | f :: fs, d => by
    rw [List.foldl_cons, foldl_projStep_length fs]
    simp [projStep_rows]

theorem foldl_projStep_colVals_ne : ∀ (fs : List String) (d : DataFrame) (c : String),
    c ∉ fs → (fs.foldl projStep d).colVals c = d.colVals c
  | [], _, _, _ => rfl
  | f :: fs, d, c, h => by
    have hcf : c ≠ f := fun he => h (he ▸ List.mem_cons_self f fs)
    have hfs : c ∉ fs := fun hm => h (List.mem_cons_of_mem f hm)
    rw [List.foldl_cons, foldl_projStep_colVals_ne fs _ c hfs]
    unfold DataFrame.colVals
    rw [projStep_rows, List.map_map]
    exact List.map_congr_left (fun r _ => rowGet_rowSet_ne r f c _ hcf)

theorem foldl_projStep_colVals_self : ∀ (fs : List String) (d : DataFrame) (f : String),
    fs.Nodup → "details" ∉ fs → f ∈ fs →
    (fs.foldl projStep d).colVals f =
      d.rows.map (fun r => detailsGet (rowGet r "details") f)
  | [], _, _, _, _, hf => absurd hf (List.not_mem_nil _)
  | g :: fs, d, f, hnd, hdet, hf => by
    obtain ⟨hg, hnd'⟩ := List.nodup_cons.mp hnd
    have hgdet : g ≠ "details" := fun he => hdet (he ▸ List.mem_cons_self g fs)
    have hdet' : "details" ∉ fs := fun hm => hdet (List.mem_cons_of_mem g hm)
    rw [List.foldl_cons]
    rcases List.mem_cons.mp hf with he | hm
    · subst he
      rw [foldl_projStep_colVals_ne fs _ f hg]
      unfold DataFrame.colVals
      rw [projStep_rows, List.map_map]
      exact List.map_congr_left (fun r _ => rowGet_rowSet_self r f _)
    · rw [foldl_projStep_colVals_self fs (projStep d g) f hnd' hdet' hm,
        projStep_rows, List.map_map]
      exact List.map_congr_left
        (fun r _ => by
          simp only [Function.comp]
          rw [rowGet_rowSet_ne r g "details" _ (Ne.symm hgdet)])

theorem foldl_projStep_cols : ∀ (fs : List String) (d : DataFrame), fs.Nodup →
    (fs.foldl projStep d).cols = d.cols ++ fs.filter (fun f => decide (f ∉ d.cols))
  | [], _, _ => by simp
  | g :: fs, d, hnd => by
    obtain ⟨hg, hnd'⟩ := List.nodup_cons.mp hnd
    rw [List.foldl_cons, foldl_projStep_cols fs (projStep d g) hnd']
    by_cases hgc : g ∈ d.cols
    · have hcols : (projStep d g).cols = d.cols := by simp [projStep_cols, hgc]
      rw [hcols]
      simp [List.filter_cons, hgc]
    · have hcols : (projStep d g).cols = d.cols ++ [g] := by simp [projStep_cols, hgc]
      rw [hcols]
      have hfil : fs.filter (fun f => decide (f ∉ d.cols ++ [g])) =
          fs.filter (fun f => decide (f ∉ d.cols)) := by
        apply List.filter_congr
        intro x hx
        have hxg : x ≠ g := fun he => hg (he ▸ hx)
        simp [List.mem_append, hxg]
      rw [hfil]
      simp [List.filter_cons, hgc]

/-! ## `extract_details_fields` assembled -/

theorem extract_unfold (df : DataFrame) (fields : Option (List String)) :
    extract_details_fields df fields = (all_fields_of fields).foldl projStep
      (df.setCol "details_raw"
        (df.rows.map (fun r => JValue.str (jsonDumps (rowGet r "details"))))) := rfl

theorem not_mem_all_fields_of (fields : Option (List String)) (s : String)
    (hd : s ∉ default_fields) (hc : s ∉ fields.getD []) :
    s ∉ all_fields_of fields :=
  fun hm => ((mem_all_fields fields s).mp hm).elim hd hc

theorem extract_rows_length (df : DataFrame) (fields : Option (List String)) :
    (extract_details_fields df fields).rows.length = df.rows.length := by
  rw [extract_unfold, foldl_projStep_length]
  exact length_rows_setCol _ _ _ (by simp)

theorem extract_details_raw_col (df : DataFrame) (fields : Option (List String))
    (h : "details_raw" ∉ fields.getD []) :
    (extract_details_fields df fields).colVals "details_raw" =
      df.rows.map (fun r => JValue.str (jsonDumps (rowGet r "details"))) := by
  rw [extract_unfold,
    foldl_projStep_colVals_ne _ _ _ (not_mem_all_fields_of fields _ (by decide) h)]
  exact colVals_setCol_self _ _ _ (by simp)

theorem extract_colVals_field (df : DataFrame) (fields : Option (List String))
    (f : String) (hf : f ∈ all_fields_of fields)
    (hdet : "details" ∉ all_fields_of fields) :
    (extract_details_fields df fields).colVals f =
      df.rows.map (fun r => detailsGet (rowGet r "details") f) := by
  rw [extract_unfold,
    foldl_projStep_colVals_self _ _ f (all_fields_nodup fields) hdet hf,
    rows_setCol_map, List.map_map]
  exact List.map_congr_left (fun r _ => by
    simp only [Function.comp]
    rw [rowGet_rowSet_ne r "details_raw" "details" _ (by decide)])

theorem extract_cols_of_fresh (df : DataFrame) (fields : Option (List String))
    (hdr_cols : "details_raw" ∉ df.cols)
    (hdr_fields : "details_raw" ∉ fields.getD [])
    (hfresh : ∀ f ∈ all_fields_of fields, f ∉ df.cols) :
    (extract_details_fields df fields).cols =
      df.cols ++ "details_raw" :: all_fields_of fields := by
  rw [extract_unfold, foldl_projStep_cols _ _ (all_fields_nodup fields)]
  have hc1 := setCol_cols df "details_raw"
    (df.rows.map (fun r => JValue.str (jsonDumps (rowGet r "details"))))
  rw [if_neg hdr_cols] at hc1
  rw [hc1]
  have hfil : (all_fields_of fields).filter
      (fun f => decide (f ∉ df.cols ++ ["details_raw"])) = all_fields_of fields := by
    rw [List.filter_eq_self]
    intro f hf
    have h1 : f ∉ df.cols := hfresh f hf
    have h2 : f ≠ "details_raw" := fun he =>
      not_mem_all_fields_of fields "details_raw" (by decide) hdr_fields (he ▸ hf)
    simp [List.mem_append, h1, h2]
  rw [hfil, List.append_assoc, List.singleton_append]

theorem rowGet_ne_null_isSome {r : Row} {c : String}
    (h : rowGet r c ≠ JValue.null) : (List.lookup c r).isSome := by
  cases hl : List.lookup c r with
  | none => exact absurd (by simp [rowGet, hl]) h
  | some w => rfl

theorem foldl_projStep_cols_length_lt (fs : List String) (d : DataFrame)
    (hnd : fs.Nodup) (f0 : String) (h1 : f0 ∈ fs) (h2 : f0 ∈ d.cols) :
    (fs.foldl projStep d).cols.length < d.cols.length + fs.length := by
  rw [foldl_projStep_cols fs d hnd, List.length_append]
  have hlt : (fs.filter (fun f => decide (f ∉ d.cols))).length < fs.length :=
    List.length_filter_lt_length_iff_exists.mpr ⟨f0, h1, by simp [h2]⟩
  omega

/-! ## Join and identity-assignment lemmas -/

theorem sum_map_ones {α : Type} : ∀ l : List α, (l.map (fun _ => (1 : Nat))).sum = l.length
  | [] => rfl
  | _ :: t => by simp [sum_map_ones t, Nat.add_comm]

theorem join_data_rows_length (p e : DataFrame) :
    (join_data p e).rows.length =
      (e.rows.map (fun er => max 1 (matchCount p er))).sum := by
  unfold join_data
  rw [List.length_flatMap]
  congr 1
  apply List.map_congr_left
  intro er _
  simp only [Function.comp]
  by_cases hms : (p.rows.filter
      (fun pr => decide (rowGet pr "user_id" = rowGet er "user_id"))).isEmpty
  · have hnil := List.isEmpty_iff.mp hms
    rw [if_pos hms]
    have hcnt : matchCount p er = 0 := by
      unfold matchCount
      rw [List.countP_eq_length_filter, hnil]
      rfl
    simp [hcnt]
  · rw [if_neg hms]
    have hne := List.isEmpty_eq_false_iff_exists_mem.mp (Bool.eq_false_iff.mpr hms)
    have hcnt : matchCount p er = (p.rows.filter
        (fun pr => decide (rowGet pr "user_id" = rowGet er "user_id"))).length := by
      unfold matchCount
      exact List.countP_eq_length_filter _ _
    obtain ⟨x, hx⟩ := hne
    have hpos : 1 ≤ (p.rows.filter
        (fun pr => decide (rowGet pr "user_id" = rowGet er "user_id"))).length :=
      List.length_pos_of_mem hx
    rw [List.length_map, hcnt]
    omega

/-! ## Claims C1 and C2 -/

/-- C1: the left join driven by events produces, for every event row, one
output row per matching profile row and exactly one row when no profile
matches; hence the output row count is the sum over event rows of
`max 1 (matching-profile count)`, and it equals the flattened event row
count whenever every event's `user_id` matches at most one profile row.
The membership hypotheses scope the statement to frames on which
`merge(on='user_id')` actually runs (pandas raises when the key column is
missing). -/
theorem join_preserves_event_rows (profiles_df events_df : DataFrame)
    (hp : "user_id" ∈ profiles_df.cols) (he : "user_id" ∈ events_df.cols) :
    (join_data profiles_df events_df).rows.length =
        (events_df.rows.map (fun er => max 1 (matchCount profiles_df er))).sum ∧
      ((∀ er ∈ events_df.rows, matchCount profiles_df er ≤ 1) →
        (join_data profiles_df events_df).rows.length = events_df.rows.length) := by
  refine ⟨join_data_rows_length profiles_df events_df, fun hone => ?_⟩
  rw [join_data_rows_length profiles_df events_df]
  have : events_df.rows.map (fun er => max 1 (matchCount profiles_df er)) =
      events_df.rows.map (fun _ => 1) := by
    apply List.map_congr_left
    intro er her
    have := hone er her
    omega
  rw [this, sum_map_ones]

/-- C1 witness: the spec's scenario — two flattened events, two profiles,
each `user_id` matching at most one profile row, output row count 2 = event
row count. -/
theorem join_preserves_event_rows_witness :
    (join_data prFrame (extract_details_fields evFrame none)).rows.length =
      (extract_details_fields evFrame none).rows.length := by
  have h := join_preserves_event_rows prFrame (extract_details_fields evFrame none)
    (by decide) (by decide)
  exact h.2 (by decide)

/-- C2: `generate_event_id` stamps every row with an `event_id`, and the
stamped values are pairwise distinct whenever the underlying `uuid.uuid4()`
draws are pairwise distinct (the universal-uniqueness assumption the source
relies on; collisions are not handled).  The column holds exactly the
successive draws, one per row, in order. -/
theorem event_ids_distinct (gen : Nat → String) (df : DataFrame)
    (hgen : ((List.range df.rows.length).map gen).Nodup) :
    (∀ r ∈ (generate_event_id gen df).rows, (List.lookup "event_id" r).isSome) ∧
      (generate_event_id gen df).colVals "event_id" =
        (List.range df.rows.length).map (fun i => JValue.str (gen i)) ∧
      ((generate_event_id gen df).colVals "event_id").Nodup ∧
      (generate_event_id gen df).rows.length = df.rows.length := by
  have hlen : ((List.range df.rows.length).map
      (fun i => JValue.str (gen i))).length = df.rows.length := by simp
  have hvals : (generate_event_id gen df).colVals "event_id" =
      (List.range df.rows.length).map (fun i => JValue.str (gen i)) :=
    colVals_setCol_self df "event_id" _ hlen
  refine ⟨fun r hr => lookup_isSome_of_mem_setCol df "event_id" _ r hr, hvals, ?_, ?_⟩
  · rw [hvals]
    have hcomp : (List.range df.rows.length).map (fun i => JValue.str (gen i)) =
        ((List.range df.rows.length).map gen).map JValue.str := by
      rw [List.map_map]
      rfl
    rw [hcomp]
    exact hgen.map (fun a b hab => JValue.str.inj hab)
  · exact length_rows_setCol df "event_id" _ hlen

/-- C2 witness: the scenario event frame with an injective id stream. -/
theorem event_ids_distinct_witness :
    (generate_event_id genDistinct evFrame).colVals "event_id" =
        (List.range evFrame.rows.length).map (fun i => JValue.str (genDistinct i)) ∧
      ((generate_event_id genDistinct evFrame).colVals "event_id").Nodup := by
  have h := event_ids_distinct genDistinct evFrame (by decide)
  exact ⟨h.2.1, h.2.2.1⟩

/-! ## Claims C3, C4 and C10 -/

/-- C3: after `extract_details_fields`, the `details_raw` column exists on
every row and is never null: it is the `json.dumps` serialization of the
row's `details` value, and a null/absent `details` serializes to the literal
`"null"`.  The hypotheses scope the statement to inputs on which the source
actually runs: the frame has a `details` column (otherwise `df['details']`
raises `KeyError`) and the caller did not request the reserved name
`details_raw` as a field to project. -/
theorem details_raw_serialized (df : DataFrame) (fields : Option (List String))
    (hdet : "details" ∈ df.cols) (hfields : "details_raw" ∉ fields.getD []) :
    (extract_details_fields df fields).colVals "details_raw" =
        df.rows.map (fun r => JValue.str (jsonDumps (rowGet r "details"))) ∧
      (∀ v ∈ (extract_details_fields df fields).colVals "details_raw",
        v ≠ JValue.null) ∧
      (∀ r ∈ (extract_details_fields df fields).rows,
        (List.lookup "details_raw" r).isSome) ∧
      jsonDumps JValue.null = "null" := by
  refine ⟨extract_details_raw_col df fields hfields, ?_, ?_, rfl⟩
  · intro v hv
    rw [extract_details_raw_col df fields hfields] at hv
    obtain ⟨r, _, he⟩ := List.mem_map.mp hv
    rw [← he]
    exact fun h => JValue.noConfusion h
  · intro r hr
    apply rowGet_ne_null_isSome
    have hmem : rowGet r "details_raw" ∈
        (extract_details_fields df fields).colVals "details_raw" := by
      unfold DataFrame.colVals
      exact List.mem_map_of_mem _ hr
    rw [extract_details_raw_col df fields hfields] at hmem
    obtain ⟨r', _, he⟩ := List.mem_map.mp hmem
    rw [← he]
    exact fun h => JValue.noConfusion h

/-- C3 witness: the spec's scenario event frame with the default field
list. -/
theorem details_raw_serialized_witness :
    (extract_details_fields evFrame none).colVals "details_raw" =
        evFrame.rows.map (fun r => JValue.str (jsonDumps (rowGet r "details"))) ∧
      (∀ v ∈ (extract_details_fields evFrame none).colVals "details_raw",
        v ≠ JValue.null) ∧
      (∀ r ∈ (extract_details_fields evFrame none).rows,
        (List.lookup "details_raw" r).isSome) ∧
      jsonDumps JValue.null = "null" :=
  details_raw_serialized evFrame none (by decide) (by decide)

/-- C4 counterexample: requesting the field `user_id`, which is already a
column of the event frame, makes `df[field] = ...` overwrite that column
instead of appending one, so the column count does NOT grow by
`1 + |effective field set|` (it grows by 4, not 5). -/
theorem flattener_growth_counterexample :
    (extract_details_fields dfClash (some ["user_id"])).cols.length ≠
      dfClash.cols.length + (1 + (all_fields_of (some ["user_id"])).length) := by
  decide

/-- C4 amended: when neither `details_raw` nor any effective field is
already a column of the input frame, `extract_details_fields` keeps the row
count, appends exactly the column `details_raw` followed by the effective
field set (so the column count grows by exactly `1 + |effective set|`),
projects `details[field]` (null when `details` is not a map containing the
key) into each new column, and the effective field set is the
lexicographically sorted, deduplicated union of the defaults and the caller
list. -/
theorem flattener_shape_fresh (df : DataFrame) (fields : Option (List String))
    (hdet : "details" ∈ df.cols)
    (hdr_cols : "details_raw" ∉ df.cols)
    (hdr_fields : "details_raw" ∉ fields.getD [])
    (hfresh : ∀ f ∈ all_fields_of fields, f ∉ df.cols) :
    (extract_details_fields df fields).rows.length = df.rows.length ∧
      (extract_details_fields df fields).cols =
        df.cols ++ "details_raw" :: all_fields_of fields ∧
      (extract_details_fields df fields).cols.length =
        df.cols.length + (1 + (all_fields_of fields).length) ∧
      (∀ f ∈ all_fields_of fields,
        (extract_details_fields df fields).colVals f =
          df.rows.map (fun r => detailsGet (rowGet r "details") f)) ∧
      List.Sorted strLeR (all_fields_of fields) ∧
      (all_fields_of fields).Nodup ∧
      (∀ s : String, s ∈ all_fields_of fields ↔
        s ∈ default_fields ∨ s ∈ fields.getD []) := by
  have hdetf : "details" ∉ all_fields_of fields := fun hm => (hfresh _ hm) hdet
  refine ⟨extract_rows_length df fields,
    extract_cols_of_fresh df fields hdr_cols hdr_fields hfresh, ?_,
    fun f hf => extract_colVals_field df fields f hf hdetf,
    all_fields_sorted fields, all_fields_nodup fields,
    fun s => mem_all_fields fields s⟩
  rw [extract_cols_of_fresh df fields hdr_cols hdr_fields hfresh]
  simp [List.length_append]
  omega

/-- C4 witness: the spec's scenario event frame with one genuinely new
caller field. -/
theorem flattener_shape_fresh_witness :
    (extract_details_fields evFrame (some ["promo_code"])).rows.length =
        evFrame.rows.length ∧
      (extract_details_fields evFrame (some ["promo_code"])).cols =
        evFrame.cols ++ "details_raw" :: all_fields_of (some ["promo_code"]) := by
  have h := flattener_shape_fresh evFrame (some ["promo_code"])
    (by decide) (by decide) (by decide) (by decide)
  exact ⟨h.1, h.2.1⟩

/-- C10 counterexample: with the caller list `["details", "user_id"]` the
loop overwrites the `details` column (sorted before `user_id`) first, so the
later `user_id` projection reads the REPLACED details value: the final
`user_id` column is `7`, not the `details[user_id]` projection `5` of the
row's original details map.  The claim's unconditional description of the
overwritten value is therefore false. -/
theorem overwrite_projection_counterexample :
    (extract_details_fields dfShadow (some ["details", "user_id"])).colVals
        "user_id" ≠
      dfShadow.rows.map (fun r => detailsGet (rowGet r "details") "user_id") := by
  decide

/-- C10 amended: provided the caller list does not contain the name
`details` itself (which the loop would overwrite mid-way), a requested field
that is already a column is overwritten with the `details[field]` projection
(null wherever `details` is not a map containing the key), the row count is
unchanged, and the column count grows by strictly less than
`1 + |effective field set|`. -/
theorem overwrite_existing_field_column (df : DataFrame)
    (fields : Option (List String)) (f0 : String)
    (hdetc : "details" ∈ df.cols)
    (hf0 : f0 ∈ fields.getD []) (hf0c : f0 ∈ df.cols)
    (hdet_fields : "details" ∉ fields.getD []) :
    (extract_details_fields df fields).colVals f0 =
        df.rows.map (fun r => detailsGet (rowGet r "details") f0) ∧
      (extract_details_fields df fields).rows.length = df.rows.length ∧
      (extract_details_fields df fields).cols.length <
        df.cols.length + (1 + (all_fields_of fields).length) := by
  have hdetf : "details" ∉ all_fields_of fields :=
    not_mem_all_fields_of fields _ (by decide) hdet_fields
  have hf0all : f0 ∈ all_fields_of fields :=
    (mem_all_fields fields f0).mpr (Or.inr hf0)
  refine ⟨extract_colVals_field df fields f0 hf0all hdetf,
    extract_rows_length df fields, ?_⟩
  rw [extract_unfold]
  have hmem1 : f0 ∈ (df.setCol "details_raw"
      (df.rows.map (fun r => JValue.str (jsonDumps (rowGet r "details"))))).cols := by
    rw [setCol_cols]
    by_cases h : "details_raw" ∈ df.cols
    · simp [h, hf0c]
    · simp only [h, if_false]
      exact List.mem_append_left _ hf0c
  have hlen1 : (df.setCol "details_raw"
      (df.rows.map (fun r => JValue.str (jsonDumps (rowGet r "details"))))).cols.length ≤
      df.cols.length + 1 := by
    rw [setCol_cols]
    by_cases h : "details_raw" ∈ df.cols <;> simp [h]
  have hlt := foldl_projStep_cols_length_lt (all_fields_of fields)
    (df.setCol "details_raw"
      (df.rows.map (fun r => JValue.str (jsonDumps (rowGet r "details")))))
    (all_fields_nodup fields) f0 hf0all hmem1
  omega

/-! ## Claims C6, C8 and C9 -/

theorem lookup_proj_row (r : Row) :
    ∀ (cs : List String) (c : String), c ∈ cs →
      List.lookup c (cs.map (fun c' => (c', rowGet r c'))) = some (rowGet r c)
  | [], c, hc => absurd hc (List.not_mem_nil c)
  | k :: cs, c, hc => by
    by_cases hk : c = k
    · subst hk
      simp [List.lookup_cons, str_beq_true rfl]
    · have hm : c ∈ cs := (List.mem_cons.mp hc).resolve_left hk
      simp only [List.map_cons, List.lookup_cons, str_beq_false hk]
      exact lookup_proj_row r cs c hm

theorem rowGet_proj_row (r : Row) (cs : List String) (c : String) (hc : c ∈ cs) :
    rowGet (cs.map (fun c' => (c', rowGet r c'))) c = rowGet r c := by
  show (List.lookup c (cs.map (fun c' => (c', rowGet r c')))).getD JValue.null =
    rowGet r c
  rw [lookup_proj_row r cs c hc]
  rfl

/-- C6: `select_final_columns` returns exactly the columns of the fixed
9-name base schema followed by the sorted effective field set that exist in
the input frame, in that order (a sublist of the specified list), never
failing on an absent name — it is silently dropped; the surviving columns
keep their values and the row count is unchanged. -/
theorem select_final_columns_spec (df : DataFrame) (extra_fields : Option (List String)) :
    ((select_final_columns df extra_fields).cols =
        (base_columns ++ select_all_fields extra_fields).filter
          (fun c => decide (c ∈ df.cols))) ∧
      (∀ c : String, c ∈ (select_final_columns df extra_fields).cols ↔
        c ∈ base_columns ++ select_all_fields extra_fields ∧ c ∈ df.cols) ∧
      ((select_final_columns df extra_fields).cols.Sublist
        (base_columns ++ select_all_fields extra_fields)) ∧
      ((select_final_columns df extra_fields).rows.length = df.rows.length) ∧
      (∀ c ∈ (select_final_columns df extra_fields).cols,
        (select_final_columns df extra_fields).colVals c = df.colVals c) := by
  refine ⟨rfl, ?_, List.filter_sublist _, by simp [select_final_columns], ?_⟩
  · intro c
    simp [select_final_columns, List.mem_filter]
    tauto
  · intro c hc
    unfold DataFrame.colVals select_final_columns
    rw [List.map_map]
    apply List.map_congr_left
    intro r _
    simp only [Function.comp]
    exact rowGet_proj_row r _ c hc

/-- C6 witness: projecting the scenario profile frame drops the absent base
columns without error and keeps the surviving columns' values and the row
count. -/
theorem select_final_columns_spec_witness :
    (select_final_columns prFrame none).rows.length = prFrame.rows.length ∧
      (select_final_columns prFrame none).colVals "user_id" =
        prFrame.colVals "user_id" := by
  have h := select_final_columns_spec prFrame none
  exact ⟨h.2.2.2.1, h.2.2.2.2 "user_id" (by decide)⟩

/-- C8: the dynamic field list computed inside `select_final_columns` is
definitionally the effective field set computed inside
`extract_details_fields` from the same caller input, and both are the
lexicographically sorted, deduplicated union of the defaults and the caller
list. -/
theorem field_lists_agree (fields : Option (List String)) :
    all_fields_of fields = select_all_fields fields ∧
      List.Sorted strLeR (select_all_fields fields) ∧
      (select_all_fields fields).Nodup ∧
      (∀ s : String, s ∈ select_all_fields fields ↔
        s ∈ default_fields ∨ s ∈ fields.getD []) :=
  ⟨rfl, all_fields_sorted fields, all_fields_nodup fields,
    fun s => mem_all_fields fields s⟩

/-- C9: `query_output_parquet` fails with the path error before any query
execution when the directory is absent (for EVERY possible engine), wraps an
execution failure in the query-failure error, and on success returns the
engine's result for the query with the placeholder replaced by a recursive
parquet glob. -/
theorem query_error_contract (fsExists : String → Bool) (query parquet_path : String) :
    (fsExists parquet_path = false →
        ∀ exec : String → Except String DataFrame,
          query_output_parquet fsExists exec query parquet_path =
            Except.error (QueryError.pathNotFound
              ("Provided path does not exist: " ++ parquet_path))) ∧
      (∀ (exec : String → Except String DataFrame) (t : DataFrame),
        fsExists parquet_path = true →
        exec (formatted_query query parquet_path) = Except.ok t →
        query_output_parquet fsExists exec query parquet_path = Except.ok t) ∧
      (∀ (exec : String → Except String DataFrame) (e : String),
        fsExists parquet_path = true →
        exec (formatted_query query parquet_path) = Except.error e →
        query_output_parquet fsExists exec query parquet_path =
          Except.error (QueryError.queryFailure ("Query failed: " ++ e))) := by
  refine ⟨?_, ?_, ?_⟩
  · intro h exec
    unfold query_output_parquet
    simp [h]
  · intro exec t h he
    unfold query_output_parquet
    simp [h, he]
  · intro exec e h he
    unfold query_output_parquet
    simp [h, he]

/-- C9 witness: an absent directory yields the path error no matter what the
engine would have answered. -/
theorem query_error_contract_witness :
    query_output_parquet (fun _ => false) (fun _ => Except.ok emptyFrame)
        "SELECT 1" "out" =
      Except.error (QueryError.pathNotFound
        ("Provided path does not exist: " ++ "out")) :=
  (query_error_contract (fun _ => false) "SELECT 1" "out").1 rfl _

/-! ## Line repair (claim C5) -/

theorem takeWhile_eq_replicate (p : Char → Bool) (c : Char)
    (hp : ∀ x, p x = true → x = c) (l : List Char) :
    l.takeWhile p = List.replicate (l.takeWhile p).length c := by
  rw [List.eq_replicate_iff]
  exact ⟨rfl, fun b hb => hp b (List.mem_takeWhile_imp hb)⟩

theorem head_dropWhile_false (p : Char → Bool) :
    ∀ (l : List Char) (x : Char), (l.dropWhile p).head? = some x → p x = false
  | [], x, h => by simp at h
  | a :: t, x, h => by
    by_cases hp : p a
    · rw [List.dropWhile_cons_of_pos hp] at h
      exact head_dropWhile_false p t x h
    · rw [List.dropWhile_cons_of_neg hp] at h
      cases h
      exact Bool.eq_false_iff.mpr hp

theorem getLast_dropWhile (p : Char → Bool) :
    ∀ l : List Char, l.dropWhile p ≠ [] →
      (l.dropWhile p).getLast? = l.getLast?
  | [], h => absurd rfl h
  | a :: t, h => by
    by_cases hp : p a
    · rw [List.dropWhile_cons_of_pos hp] at h ⊢
      have ht : t ≠ [] := by
        rintro rfl
        exact h rfl
      match t, ht with
      | b :: t', _ =>
        rw [getLast_dropWhile p (b :: t') h, List.getLast?_cons_cons]
    · rw [List.dropWhile_cons_of_neg hp]

theorem pyStripList_decomposition (p : Char → Bool) (c : Char)
    (hp : ∀ x, p x = true → x = c) (l : List Char) :
    ∃ a b, l = List.replicate a c ++ pyStripList p l ++ List.replicate b c := by
  refine ⟨(l.takeWhile p).length, ((l.dropWhile p).reverse.takeWhile p).length, ?_⟩
  conv_lhs => rw [← List.takeWhile_append_dropWhile p l]
  rw [List.append_assoc]
  congr 1
  · exact takeWhile_eq_replicate p c hp l
  · conv_lhs => rw [← List.reverse_reverse (l.dropWhile p)]
    conv_lhs =>
      rw [← List.takeWhile_append_dropWhile p (l.dropWhile p).reverse,
        List.reverse_append]
    congr 1
    rw [takeWhile_eq_replicate p c hp (l.dropWhile p).reverse,
      List.reverse_replicate]
    simp

theorem pyStripList_head (p : Char → Bool) (l : List Char) (x : Char)
    (h : (pyStripList p l).head? = some x) : p x = false := by
  unfold pyStripList at h
  rw [List.head?_reverse] at h
  have hy : (l.dropWhile p).reverse.dropWhile p ≠ [] := by
    intro he
    rw [he] at h
    simp at h
  rw [getLast_dropWhile p _ hy, List.getLast?_reverse] at h
  exact head_dropWhile_false p _ x h

theorem pyStripList_last (p : Char → Bool) (l : List Char) (x : Char)
    (h : (pyStripList p l).getLast? = some x) : p x = false := by
  unfold pyStripList at h
  rw [List.getLast?_reverse] at h
  exact head_dropWhile_false p _ x h

/-- C5 counterexample: on the doubly-quoted line `""1,A""` the source's
`line.strip().strip('"')` removes BOTH quote layers, while the claimed
single-layer strip would leave `"1,A"` — so the operation does not strip
"exactly a single layer (one quote from each end at most)". -/
theorem profile_repair_single_layer_counterexample :
    repair_line lineEx ≠ strip_one_quote_layer (pyStrip lineEx) ∧
      repair_line lineEx = "1,A" ∧
      strip_one_quote_layer (pyStrip lineEx) = "\"1,A\"" := by
  decide

/-- C5 amended: for every input file line, the profile loader strips
leading/trailing whitespace and then ALL surrounding quote characters (the
whole maximal quote run at each end, `str.strip('"')` semantics): the
whitespace-stripped line splits as quotes ++ repaired-line ++ quotes, the
repaired line neither starts nor ends with a quote, the whitespace strip is
maximal at both ends, and the byte-order mark is dropped from the start of
the decoded file content (and only there) before the lines are repaired and
reassembled into `fixed_csv`. -/
theorem profile_line_repair_strips_all_quotes (line content : String) :
    (∃ a b, (pyStrip line).data =
        List.replicate a '"' ++ (repair_line line).data ++ List.replicate b '"') ∧
      (∀ ch, (repair_line line).data.head? = some ch → ch ≠ '"') ∧
      (∀ ch, (repair_line line).data.getLast? = some ch → ch ≠ '"') ∧
      (∀ ch, (pyStrip line).data.head? = some ch → pyIsSpace ch = false) ∧
      (∀ ch, (pyStrip line).data.getLast? = some ch → pyIsSpace ch = false) ∧
      stripBOM (String.mk ('﻿' :: content.data)) = content ∧
      (content.data.head? ≠ some '﻿' → stripBOM content = content) := by
  have hq : ∀ x : Char, decide (x = '"') = true → x = '"' :=
    fun x hx => of_decide_eq_true hx
  refine ⟨?_, ?_, ?_, ?_, ?_, ?_, ?_⟩
  · exact pyStripList_decomposition (fun ch => decide (ch = '"')) '"' hq
      (pyStrip line).data
  · intro ch hch
    have := pyStripList_head (fun ch => decide (ch = '"')) (pyStrip line).data ch hch
    exact of_decide_eq_false this
  · intro ch hch
    have := pyStripList_last (fun ch => decide (ch = '"')) (pyStrip line).data ch hch
    exact of_decide_eq_false this
  · exact pyStripList_head pyIsSpace line.data
  · exact pyStripList_last pyIsSpace line.data
  · rfl
  · intro h
    unfold stripBOM
    match hd : content.data with
    | [] => rfl
    | c :: rest =>
      rw [hd] at h
      have hc : c ≠ '﻿' := fun he => h (by simp [he])
      simp only [hc, if_false]

/-- C5 witness: on the doubly-quoted example line the repaired text starts
with `1`, which is indeed not a quote character. -/
theorem profile_line_repair_strips_all_quotes_witness :
    (repair_line lineEx).data.head? = some '1' ∧ '1' ≠ '"' :=
  ⟨by decide,
    (profile_line_repair_strips_all_quotes lineEx "c").2.1 '1' (by decide)⟩

/-! ## Stage purity (claim C7) -/

/-- C7 counterexample: `extract_details_fields` mutates the frame object it
received — after the call, the object at the input reference is no longer
the frame that was there before (its column set changed in place). -/
theorem stage_purity_counterexample :
    heapGet (extract_details_fields_obj none 0 heapEx).2 0 ≠ heapGet heapEx 0 := by
  decide

/-- C7 amended: joining and column projection allocate fresh frames and
leave every existing object unchanged, but detail flattening and identity
assignment return their argument reference and update its object in place
(every other object is untouched). -/
theorem stage_mutation_profile (h : List DataFrame) (r rp re : Nat)
    (fields extra : Option (List String)) (gen : Nat → String) :
    ((join_data_obj rp re h).1 = h.length ∧
      (∀ i, i < h.length → heapGet (join_data_obj rp re h).2 i = heapGet h i) ∧
      heapGet (join_data_obj rp re h).2 h.length =
        join_data (heapGet h rp) (heapGet h re)) ∧
    ((select_final_columns_obj extra r h).1 = h.length ∧
      (∀ i, i < h.length →
        heapGet (select_final_columns_obj extra r h).2 i = heapGet h i) ∧
      heapGet (select_final_columns_obj extra r h).2 h.length =
        select_final_columns (heapGet h r) extra) ∧
    ((extract_details_fields_obj fields r h).1 = r ∧
      (r < h.length → heapGet (extract_details_fields_obj fields r h).2 r =
        extract_details_fields (heapGet h r) fields) ∧
      (∀ i, i < h.length → i ≠ r →
        heapGet (extract_details_fields_obj fields r h).2 i = heapGet h i)) ∧
    ((generate_event_id_obj gen r h).1 = r ∧
      (r < h.length → heapGet (generate_event_id_obj gen r h).2 r =
        generate_event_id gen (heapGet h r)) ∧
      (∀ i, i < h.length → i ≠ r →
        heapGet (generate_event_id_obj gen r h).2 i = heapGet h i)) := by
  refine ⟨⟨rfl, ?_, ?_⟩, ⟨rfl, ?_, ?_⟩, ⟨rfl, ?_, ?_⟩, ⟨rfl, ?_, ?_⟩⟩
  · intro i hi
    unfold join_data_obj heapGet
    exact List.getD_append _ _ _ _ hi
  · unfold join_data_obj heapGet
    simp
  · intro i hi
    unfold select_final_columns_obj heapGet
    exact List.getD_append _ _ _ _ hi
  · unfold select_final_columns_obj heapGet
    simp
  · intro hr
    unfold extract_details_fields_obj heapGet
    simp [List.getD, List.getElem?_set, hr]
  · intro i hi hir
    unfold extract_details_fields_obj heapGet
    simp [List.getD, List.getElem?_set, Ne.symm hir]
  · intro hr
    unfold generate_event_id_obj heapGet
    simp [List.getD, List.getElem?_set, hr]
  · intro i hi hir
    unfold generate_event_id_obj heapGet
    simp [List.getD, List.getElem?_set, Ne.symm hir]

/-- C7 witness: on the one-object heap, the join leaves the existing object
in place and the flattener's in-place update is visible at the input
reference. -/
theorem stage_mutation_profile_witness :
    heapGet (join_data_obj 0 0 heapEx).2 0 = heapGet heapEx 0 ∧
      heapGet (extract_details_fields_obj none 0 heapEx).2 0 =
        extract_details_fields (heapGet heapEx 0) none := by
  have h := stage_mutation_profile heapEx 0 0 0 none none genDistinct
  exact ⟨h.1.2.1 0 (by decide), h.2.2.1.2.1 (by decide)⟩

/-- C10 witness: the clash frame, requesting the existing column
`user_id`. -/
theorem overwrite_existing_field_column_witness :
    (extract_details_fields dfClash (some ["user_id"])).colVals "user_id" =
        dfClash.rows.map (fun r => detailsGet (rowGet r "details") "user_id") ∧
      (extract_details_fields dfClash (some ["user_id"])).cols.length <
        dfClash.cols.length + (1 + (all_fields_of (some ["user_id"])).length) := by
  have h := overwrite_existing_field_column dfClash (some ["user_id"]) "user_id"
    (by decide) (by decide) (by decide) (by decide)
  exact ⟨h.1, h.2.2⟩

end Orchid
